import Mathlib

/-!
Verification of the `mardiportal-workflowtools` repository.

This file gives a shallow embedding, in Lean 4, of the Python code in
`src/mardiportal/workflowtools/` and proves / refutes the frozen claims about
it.  Python strings are modelled as `List Char`; Python `dict`-shaped JSON
values are modelled by explicit structures with `Option` fields for possibly
missing keys; code that can raise is modelled with `Except` or an explicit
"raised" constructor; network calls are modelled by oracles (functions from
the attempt / call index to the call's outcome).
-/

/-- Characters of a string literal (Python strings are modelled as `List Char`). -/
def chars (s : String) : List Char := s.toList

/-! ### Python `str.replace` (as used with non-empty patterns in `mardikg_query.py`)

`pyReplaceFuel` scans left to right: at each position, if the pattern matches,
it emits the replacement and skips over the match, otherwise it copies one
character.  This is CPython's semantics of `s.replace(old, new)` for a
non-empty `old`.  Fuel (initialised to the length of the string) makes the
recursion structural; every step consumes at least one character, so the fuel
never runs out. -/

def pyReplaceFuel (pat repl : List Char) : Nat → List Char → List Char
  | 0, s => s
  | _ + 1, [] => []
  | fuel + 1, c :: rest =>
    if pat ≠ [] ∧ pat.isPrefixOf (c :: rest) then
      repl ++ pyReplaceFuel pat repl fuel ((c :: rest).drop pat.length)
    else
      c :: pyReplaceFuel pat repl fuel rest

/-- Model of Python `s.replace(pat, repl)` for non-empty `pat`. -/
def pyReplace (s pat repl : List Char) : List Char :=
  pyReplaceFuel pat repl s.length s

/-- The snippet-cleaning step shared by both normalizers
(`mardikg_query.py` lines 44 and 93):
`snippet.replace("<span class=\"searchmatch\">", "").replace("</span>", "")`. -/
def cleanSnippet (s : List Char) : List Char :=
  pyReplace (pyReplace s (chars "<span class=\"searchmatch\">") []) (chars "</span>") []

/-- Model of Python's substring test `pat in s`. -/
def containsSub (pat : List Char) : List Char → Bool
  | [] => pat.isEmpty
  | c :: rest => pat.isPrefixOf (c :: rest) || containsSub pat rest

/-- Declarative specification of one pass of Python `str.replace`: the output
arises from the input by replacing exactly the leftmost non-overlapping
occurrences of `pat`, left to right, by `repl`.  `no_occ` covers a remaining
string with no occurrence; `occ` peels off the leftmost occurrence: `a` is
the part before it (no occurrence of `pat` starts inside `a`), and scanning
continues after the match. -/
inductive ReplSpec (pat repl : List Char) : List Char → List Char → Prop
  | no_occ (s : List Char) (h : containsSub pat s = false) : ReplSpec pat repl s s
  | occ (a b t : List Char)
      (ha : ∀ i < a.length, pat.isPrefixOf ((a ++ pat ++ b).drop i) = false)
      (hb : ReplSpec pat repl b t) :
      ReplSpec pat repl (a ++ pat ++ b) (a ++ repl ++ t)

/-! ### Regex fragments used by the normalizers

The source uses exactly two regexes:
`re.search(r"QID(Q\d+)", clean_snippet)` (arXiv mode, line 45) and
`re.match(r"Publication:(\d+)", title)` (DOI mode, line 97).
Both are "literal text, then a maximal (greedy) non-empty run of digits";
`\d` is modelled as an ASCII digit. -/

/-- Maximal run of digits at the head of a string (the greedy `\d+`). -/
def leadingDigits : List Char → List Char
  | [] => []
  | c :: rest => if c.isDigit then c :: leadingDigits rest else []

/-- Anchored match of the pattern `pre` then `\d+` at the start of `s`:
returns the digit run captured by `\d+`, or `none` if `s` does not start with
`pre` followed by at least one digit. -/
def anchorDigits (pre s : List Char) : Option (List Char) :=
  if pre.isPrefixOf s then
    if leadingDigits (s.drop pre.length) = [] then none
    else some (leadingDigits (s.drop pre.length))
  else none

/-- Model of `re.search(r"QID(Q\d+)", s)` returning `group(1)`: the leftmost
position where `QIDQ\d+` matches wins, and the captured group is `Q` followed
by the greedy digit run. -/
def searchQID : List Char → Option (List Char)
  | [] => none
  | c :: rest =>
    match anchorDigits (chars "QIDQ") (c :: rest) with
    | some ds => some ('Q' :: ds)
    | none => searchQID rest

/-- Model of lines 96–98 of `mardikg_query.py`:
`qid_match = re.match(r"Publication:(\d+)", title)` and
`qid = f"Q{qid_match.group(1)}" if qid_match else None`.
`re.match` anchors at the start of the string only (it does not require the
match to span the whole title). -/
def doiQid (title : List Char) : Option (List Char) :=
  (anchorDigits (chars "Publication:") title).map (fun ds => 'Q' :: ds)

/-! ### The raw payload and the two result normalizers -/

/-- One entry of `payload["query"]["search"]`; `title` / `snippet` keys may be
missing (the code reads them with `r.get("title", "(no title)")` and
`r.get("snippet", "")`). -/
structure SearchEntry where
  title : Option (List Char)
  snippet : Option (List Char)

/-- The value under the payload's `"query"` key; its `"search"` key may be missing. -/
structure QueryBlock where
  search : Option (List SearchEntry)

/-- A parsed JSON response payload; the `"query"` key may be missing. -/
structure RawPayload where
  query : Option QueryBlock

/-- Model of `data.get("query", {}).get("search", [])`. -/
def getSearchList (p : RawPayload) : List SearchEntry :=
  match p.query with
  | none => []
  | some qb => qb.search.getD []

/-- One output record; the Python code builds a dict with exactly the keys
`"qid"`, `"title"`, `"snippet"`, modelled by these three fields. -/
structure SearchResult where
  qid : Option (List Char)
  title : List Char
  snippet : List Char
  deriving DecidableEq

/-- Loop body of `query_mardi_kg_for_arxivid` (lines 42–52). -/
def processEntryArxiv (r : SearchEntry) : SearchResult :=
  let snippet := r.snippet.getD []
  let clean := cleanSnippet snippet
  { qid := searchQID clean
    title := r.title.getD (chars "(no title)")
    snippet := clean }

/-- Result extraction of `query_mardi_kg_for_arxivid` (lines 41–54), applied to
the payload returned by the query executor. -/
def query_mardi_kg_for_arxivid_results (p : RawPayload) : List SearchResult :=
  (getSearchList p).map processEntryArxiv

/-- Loop body of `query_mardi_kg_for_doi` (lines 91–104). -/
def processEntryDoi (r : SearchEntry) : SearchResult :=
  let snippet := r.snippet.getD []
  let clean := cleanSnippet snippet
  let title := r.title.getD (chars "(no title)")
  { qid := doiQid title
    title := title
    snippet := clean }

/-- Result extraction of `query_mardi_kg_for_doi` (lines 90–106), applied to
the payload returned by the query executor. -/
def query_mardi_kg_for_doi_results (p : RawPayload) : List SearchResult :=
  (getSearchList p).map processEntryDoi

/-! ### The retrying query executor (`query_mardi_kg`, lines 110–159)

The HTTP transport is modelled by an oracle
`post : Nat → Except E P` giving, for each 1-based attempt number, either the
parsed JSON body (`requests.post` + `raise_for_status` + `.json()` all
succeeding) or the `requests.RequestException` raised.  `E` is the type of
transport exceptions, `P` the type of parsed payloads.

The outcome records the Python-observable behaviour: the value returned or
raised (`Except.error none` models `raise None`, i.e. the `TypeError` hit
when `last_exception` is still `None`), the number of POST attempts made, the
number of `time.sleep(retry_delay)` calls (every sleep in the source passes
the constant `retry_delay`), and whether the `for`/`else` exhaustion branch
ran (which prints the curl reproduction command). -/

structure RunOutcome (E P : Type) where
  result : Except (Option E) P
  attempts : Nat
  sleeps : Nat
  exhausted : Bool

/-- The `for attempt in range(1, max_retries + 1): try ... except ... else ...`
loop of `query_mardi_kg` (lines 142–157).  `attempt` is the current 1-based
attempt number, the `Nat` argument is the number of loop iterations still to
run, and the `Option E` argument is the current `last_exception`.  The
`0` case is the `else` branch: all iterations ran without `break`, so the
exhaustion diagnostics are printed and `last_exception` is raised.  A failing
attempt sleeps exactly when `attempt < max_retries`, i.e. when at least one
iteration remains. -/
def queryGo {E P : Type} (post : Nat → Except E P) (attempt : Nat) :
    Nat → Option E → RunOutcome E P
  | 0, lastExc =>
    { result := Except.error lastExc, attempts := 0, sleeps := 0, exhausted := true }
  | remaining + 1, _ =>
    match post attempt with
    | Except.ok d =>
      { result := Except.ok d, attempts := 1, sleeps := 0, exhausted := false }
    | Except.error e =>
      let rest := queryGo post (attempt + 1) remaining (some e)
      { result := rest.result
        attempts := rest.attempts + 1
        sleeps := rest.sleeps + (if remaining = 0 then 0 else 1)
        exhausted := rest.exhausted }

/-- The form-data parameter dict built at lines 134–140, in insertion order. -/
def mkParams (query ns : List Char) : List (List Char × List Char) :=
  [(chars "action", chars "query"),
   (chars "list", chars "search"),
   (chars "srsearch", query),
   (chars "srnamespace", ns),
   (chars "format", chars "json")]

/-- A single-quote character. -/
def sqChar : Char := '\''

/-- Safe characters of `shlex.quote`: its `_find_unsafe` regex flags every
character that is not an ASCII word character and not one of
`@` `%` `+` `=` `:` `,` `.` `-` or the forward slash. -/
def shlexSafe (c : Char) : Bool :=
  c.isAlpha || c.isDigit || c = '_' || c = '@' || c = '%' ||
    c = '+' || c = '=' || c = ':' || c = ',' || c = '.' || c = '/' || c = '-'

/-- Model of Python `shlex.quote`: empty strings become `''`; strings of safe
characters are returned unchanged; anything else is wrapped in single quotes
with each embedded single quote replaced by `'"'"'`. -/
def shlexQuote (s : List Char) : List Char :=
  if s = [] then [sqChar, sqChar]
  else if s.all shlexSafe then s
  else
    sqChar ::
      ((s.flatMap fun c =>
        if c = sqChar then [sqChar, '"', sqChar, '"', sqChar] else [c]) ++ [sqChar])

/-- Model of `generate_curl_command` (lines 162–186) in its form-data branch
(`json_data=False`, the only way the executor calls it):
`'&'.join(f"{k}={v}")` over the param dict, then
`f"curl -X POST {shlex.quote(url)} -d {escaped_data}"`. -/
def generate_curl_command (url : List Char) (params : List (List Char × List Char)) :
    List Char :=
  let dataStr := List.intercalate (chars "&") (params.map fun kv => kv.1 ++ chars "=" ++ kv.2)
  chars "curl -X POST " ++ shlexQuote url ++ chars " -d " ++ shlexQuote dataStr

/-- Model of `query_mardi_kg` (lines 110–159): builds the params, runs the
retry loop (`max_retries` is a Python `int`, modelled as `Int`;
`range(1, max_retries + 1)` has `max_retries.toNat` elements), and, when the
exhaustion branch runs, prints the curl reproduction command (returned here as
the second component; `none` means nothing was printed). -/
def query_mardi_kg {E P : Type} (post : Nat → Except E P) (query ns apiUrl : List Char)
    (maxRetries : Int) : RunOutcome E P × Option (List Char) :=
  let out := queryGo post 1 maxRetries.toNat none
  (out, if out.exhausted then some (generate_curl_command apiUrl (mkParams query ns)) else none)

/-! ### Credential lookup (`secrets_helper.read_credentials`, lines 14–52) -/

/-- The returned credential record (the dict `{"user": ..., "password": ...}`). -/
structure Creds where
  user : List Char
  password : List Char
  deriving DecidableEq

/-- Which log message, if any, `read_credentials` emits on its file branch:
`missingKeys` is the `"Missing {name} credentials in {path}."` warning,
`fileError` the `"Could not get {name} credentials from {path}."` warning. -/
inductive CredLog
  | noLog
  | missingKeys
  | fileError
  deriving DecidableEq

/-- Python `dict` built from a list of key-value pairs: a later pair with the
same key overwrites an earlier one, so lookup prefers the last occurrence. -/
def dictLookup (kvs : List (List Char × List Char)) (k : List Char) : Option (List Char) :=
  match kvs with
  | [] => none
  | kv :: rest =>
    match dictLookup rest k with
    | some v => some v
    | none => if kv.1 = k then some kv.2 else none

/-- Python `line.strip()` (whitespace trimmed from both ends). -/
def stripChars (l : List Char) : List Char :=
  ((l.dropWhile Char.isWhitespace).reverse.dropWhile Char.isWhitespace).reverse

/-- Python `line.split("=", 1)` for a line containing `=`: the part before the
first `=` and the part after it. -/
def splitOnceEq : List Char → List Char × List Char
  | [] => ([], [])
  | c :: rest =>
    if c = '=' then ([], rest)
    else
      let p := splitOnceEq rest
      (c :: p.1, p.2)

/-- Lines 36–40 of `secrets_helper.py`:
`dict(line.strip().split("=", 1) for line in f if "=" in line)`. -/
def parseSecretLines (lines : List (List Char)) : List (List Char × List Char) :=
  (lines.filter fun l => l.contains '=').map fun l => splitOnceEq (stripChars l)

/-- Model of `read_credentials(name, path, only_local)`.
The Prefect secret store is external; `prefectResult` is `some c` when both
`Secret.load(f"{name}-user")` and `Secret.load(f"{name}-password")` succeed
(the code then returns both immediately) and `none` when any of it raises
(the code logs at info level and falls through to the file).  `fileLines` is
`some` of the file's lines when `open(path)` succeeds and `none` when reading
the file raises. -/
def read_credentials (onlyLocal : Bool) (prefectResult : Option Creds)
    (name : List Char) (fileLines : Option (List (List Char))) :
    Option Creds × CredLog :=
  match (if onlyLocal then none else prefectResult) with
  | some c => (some c, CredLog.noLog)
  | none =>
    match fileLines with
    | none => (none, CredLog.fileError)
    | some lines =>
      let kvs := parseSecretLines lines
      let userKey := name ++ chars "-user"
      let passKey := name ++ chars "-password"
      match dictLookup kvs userKey, dictLookup kvs passKey with
      | some u, some p => (some { user := u, password := p }, CredLog.noLog)
      | _, _ => (none, CredLog.missingKeys)

/-! ### Storage wrapper exception handling (`lake_client.py`, `ipfs_client.py`)

Each wrapper method performs one remote call (or a short fixed chain of
calls inside a single `try` block) and post-processes the outcome in its
`except` clauses.  The remote work of a method is modelled as one oracle
outcome `Except PyExc A`; the Lean functions below are the translation of the
`try`/`except` skeletons only, which is what the claims are about. -/

/-- The exceptions distinguished by the handlers:
`apiExc status body` is `lakefs_sdk.ApiException`, `httpError status text` is
`requests.HTTPError` (with `e.response.status_code` / `e.response.text`), and
`otherExc` any other `Exception`. -/
inductive PyExc
  | apiExc (status : Nat) (body : List Char)
  | httpError (status : Nat) (text : List Char)
  | otherExc
  deriving DecidableEq

/-- Outcome of calling a wrapper method: either it returns a value or an
exception escapes it uncaught. -/
inductive MethodOutcome (α : Type)
  | ret (a : α)
  | uncaught (e : PyExc)
  deriving DecidableEq

/-- The method never lets an exception escape. -/
def raisesNothing {α : Type} (o : MethodOutcome α) : Prop :=
  ∀ e, o ≠ MethodOutcome.uncaught e

/-- `LakeClient.health_check` (lines 50–63): any exception becomes `False`. -/
def health_check (call : Except PyExc Unit) : MethodOutcome Bool :=
  match call with
  | Except.ok _ => MethodOutcome.ret true
  | Except.error _ => MethodOutcome.ret false

/-- `LakeClient.file_exists` (lines 65–78): any exception becomes `False`. -/
def file_exists (call : Except PyExc Unit) : MethodOutcome Bool :=
  match call with
  | Except.ok _ => MethodOutcome.ret true
  | Except.error _ => MethodOutcome.ret false

/-- `LakeClient.load_file` (lines 80–92): any exception becomes `None`. -/
def load_file (call : Except PyExc (List Char)) : MethodOutcome (Option (List Char)) :=
  match call with
  | Except.ok s => MethodOutcome.ret (some s)
  | Except.error _ => MethodOutcome.ret none

/-- `LakeClient.list_objects` (lines 94–114): any exception becomes `None`.
`A` stands for the reshaped file-info list. -/
def list_objects {A : Type} (call : Except PyExc A) : MethodOutcome (Option A) :=
  match call with
  | Except.ok l => MethodOutcome.ret (some l)
  | Except.error _ => MethodOutcome.ret none

/-- `LakeClient.upload_to_lakefs` (MinIO variant, lines 146–187): per file,
any exception appends `-1`, success appends `200`; nothing is re-raised. -/
def upload_to_lakefs (calls : List (Except PyExc Unit)) : MethodOutcome (List Int) :=
  MethodOutcome.ret
    (calls.map fun c =>
      match c with
      | Except.ok _ => (200 : Int)
      | Except.error _ => (-1 : Int))

/-- `LakeClient.commit_to_lakefs` (lines 190–213).  `call` is the outcome of
building the `CommitCreation` and invoking `CommitsApi(...).commit(...)`, with
the commit id on success.  An `ApiException` with status 400 whose body
contains `"commit: no changes"` is benign and maps to `None`; every other
`ApiException` is re-raised, and so is every other exception. -/
def commit_to_lakefs (call : Except PyExc (List Char)) :
    MethodOutcome (Option (List Char)) :=
  match call with
  | Except.ok id => MethodOutcome.ret (some id)
  | Except.error (PyExc.apiExc status body) =>
    if status = 400 ∧ containsSub (chars "commit: no changes") body then
      MethodOutcome.ret none
    else
      MethodOutcome.uncaught (PyExc.apiExc status body)
  | Except.error e => MethodOutcome.uncaught e

/-- `LakeClient.sync_repo_to_local` (lines 215–247): the whole
paginate-and-download block sits in one `try`; any exception is logged and
re-raised. -/
def sync_repo_to_local (call : Except PyExc Unit) : MethodOutcome Unit :=
  match call with
  | Except.ok _ => MethodOutcome.ret ()
  | Except.error e => MethodOutcome.uncaught e

/-- `IPFSClient.add_file` (lines 32–66): any exception becomes `None`. -/
def add_file (call : Except PyExc (List Char)) : MethodOutcome (Option (List Char)) :=
  match call with
  | Except.ok cid => MethodOutcome.ret (some cid)
  | Except.error _ => MethodOutcome.ret none

/-- `IPFSClient.download_file` (lines 85–113): any exception becomes `False`. -/
def download_file (call : Except PyExc Unit) : MethodOutcome Bool :=
  match call with
  | Except.ok _ => MethodOutcome.ret true
  | Except.error _ => MethodOutcome.ret false

/-- `IPFSClient.pin` (lines 115–135): any exception becomes `False`. -/
def pin (call : Except PyExc Unit) : MethodOutcome Bool :=
  match call with
  | Except.ok _ => MethodOutcome.ret true
  | Except.error _ => MethodOutcome.ret false

/-- `IPFSClient.unpin` (lines 138–158): any exception becomes `False`. -/
def unpin (call : Except PyExc Unit) : MethodOutcome Bool :=
  match call with
  | Except.ok _ => MethodOutcome.ret true
  | Except.error _ => MethodOutcome.ret false

/-- `IPFSClient.run_gc` (lines 160–176): any exception becomes `False`. -/
def run_gc (call : Except PyExc Unit) : MethodOutcome Bool :=
  match call with
  | Except.ok _ => MethodOutcome.ret true
  | Except.error _ => MethodOutcome.ret false

/-- `IPFSClient.list_pins` (lines 178–199): any exception becomes `None`. -/
def list_pins {A : Type} (call : Except PyExc A) : MethodOutcome (Option A) :=
  match call with
  | Except.ok pins => MethodOutcome.ret (some pins)
  | Except.error _ => MethodOutcome.ret none

/-- `IPFSClient.list_local_refs` (lines 203–222): any exception becomes `None`. -/
def list_local_refs {A : Type} (call : Except PyExc A) : MethodOutcome (Option A) :=
  match call with
  | Except.ok cids => MethodOutcome.ret (some cids)
  | Except.error _ => MethodOutcome.ret none

/-- `IPFSClient.mkdir_mfs` (lines 225–245): any exception becomes `False`. -/
def mkdir_mfs (call : Except PyExc Unit) : MethodOutcome Bool :=
  match call with
  | Except.ok _ => MethodOutcome.ret true
  | Except.error _ => MethodOutcome.ret false

/-- `IPFSClient.remove_mfs_path` (lines 247–270): the only `except` clause is
`except requests.HTTPError`; a 500 whose response text contains
`"does not exist"` is benign (`True`), other HTTP errors map to `False`, and
any non-`HTTPError` exception escapes the method uncaught. -/
def remove_mfs_path (call : Except PyExc Unit) : MethodOutcome Bool :=
  match call with
  | Except.ok _ => MethodOutcome.ret true
  | Except.error (PyExc.httpError status text) =>
    if status = 500 ∧ containsSub (chars "does not exist") text then
      MethodOutcome.ret true
    else
      MethodOutcome.ret false
  | Except.error e => MethodOutcome.uncaught e

/-- `IPFSClient.tag_file` (lines 274–314): an HTTP 500 whose lower-cased
response text contains `"file already exists"` maps to `False` (warning), any
other `HTTPError` maps to `False`, and the final `except Exception` maps
everything else to `False`; nothing is re-raised. -/
def tag_file (call : Except PyExc Unit) : MethodOutcome Bool :=
  match call with
  | Except.ok _ => MethodOutcome.ret true
  | Except.error (PyExc.httpError status text) =>
    if status = 500 ∧ containsSub (chars "file already exists") (text.map Char.toLower) then
      MethodOutcome.ret false
    else
      MethodOutcome.ret false
  | Except.error _ => MethodOutcome.ret false

/-- `IPFSClient.download_by_tag` (lines 318–345): any exception becomes `False`. -/
def download_by_tag (call : Except PyExc Unit) : MethodOutcome Bool :=
  match call with
  | Except.ok _ => MethodOutcome.ret true
  | Except.error _ => MethodOutcome.ret false

/-- `IPFSClient.list_tags` (lines 347–392): any exception becomes `None`. -/
def list_tags {A : Type} (call : Except PyExc A) : MethodOutcome (Option A) :=
  match call with
  | Except.ok tags => MethodOutcome.ret (some tags)
  | Except.error _ => MethodOutcome.ret none

/-! ### `LakeClient.upload_to_lakefs_boto` (lines 116–143)

Line 134 of the source is
`print(f"Uploading key={key} to repo={repo}...")`, and `repo` is neither a
parameter of the method (the parameter is `_repo`) nor a local variable: the
only binding of that name in the module lives inside the
`if __name__ == "__main__":` block, so on import it does not exist.  The
embedding makes that scope explicit: `globalRepo` is the module-level binding
of the name `repo`, if any; when it is `none`, evaluating the f-string raises
`NameError`.  The `print` sits inside the `with open(...)` block but before
the `try` that wraps `put_object`, so the `NameError` happens before any
upload and is caught nowhere in the method. -/

/-- Exceptions that can escape `upload_to_lakefs_boto`: the `NameError` from
the free variable `repo`, or the `OSError` from `open()` on an unreadable
file (both outside any `try`). -/
inductive BotoExc
  | nameError
  | ioError
  deriving DecidableEq

/-- A file passed to the upload loop: its path and whether `open(path, 'rb')`
succeeds. -/
structure BotoFile where
  path : List Char
  readable : Bool

/-- Python `os.path.basename` on a POSIX path: the part after the last `/`. -/
def basename (p : List Char) : List Char :=
  (p.reverse.takeWhile (fun c => c ≠ '/')).reverse

/-- Python `s.strip('/')`: forward slashes trimmed from both ends. -/
def stripSlashes (l : List Char) : List Char :=
  ((l.dropWhile (fun c => c = '/')).reverse.dropWhile (fun c => c = '/')).reverse

/-- The S3 key built at lines 129–132: `f"{_branch}/{subpath.strip('/')}/{filename}"`
when the subpath is non-empty (Python truthiness), else `f"{_branch}/{filename}"`. -/
def botoKey (branch subpath fname : List Char) : List Char :=
  if subpath ≠ [] then
    branch ++ chars "/" ++ stripSlashes subpath ++ chars "/" ++ fname
  else
    branch ++ chars "/" ++ fname

/-- What a run of `upload_to_lakefs_boto` did: the status-code list it would
return, the exception (if any) that escaped it, and how many `put_object`
calls it made. -/
structure BotoOutcome where
  results : List Int
  raised : Option BotoExc
  putCalls : Nat
  deriving DecidableEq

/-- The upload loop of `upload_to_lakefs_boto`.  `put k` is the outcome of the
`k`-th (0-based) `self.s3_client.put_object(...)` call: the HTTP status code
from the response metadata, or the exception the inner `try` converts to
`-1`.  For each file: open it (an unreadable file raises uncaught), compute
the key, print the f-string referencing the free name `repo` (raising
`NameError` if `globalRepo` is `none`), then attempt the upload inside the
inner `try`. -/
def botoGo (globalRepo : Option (List Char)) (put : Nat → Except Unit Int)
    (branch subpath : List Char) : List BotoFile → Nat → BotoOutcome
  | [], _ => { results := [], raised := none, putCalls := 0 }
  | f :: rest, k =>
    if f.readable then
      let fname := basename f.path
      let _key := botoKey branch subpath fname
      match globalRepo with
      | none => { results := [], raised := some BotoExc.nameError, putCalls := 0 }
      | some _ =>
        match put k with
        | Except.ok code =>
          let o := botoGo globalRepo put branch subpath rest (k + 1)
          { results := code :: o.results, raised := o.raised, putCalls := o.putCalls + 1 }
        | Except.error _ =>
          let o := botoGo globalRepo put branch subpath rest (k + 1)
          { results := (-1 : Int) :: o.results, raised := o.raised, putCalls := o.putCalls + 1 }
    else
      { results := [], raised := some BotoExc.ioError, putCalls := 0 }

/-- Model of `upload_to_lakefs_boto(_file_paths, _repo, _branch, _lakefs_repo_subpath)`.
`_repo` only names the bucket of `put_object` (inside the oracle); the
`print` uses the free name `repo` modelled by `globalRepo`. -/
def upload_to_lakefs_boto (globalRepo : Option (List Char)) (put : Nat → Except Unit Int)
    (branch subpath : List Char) (files : List BotoFile) : BotoOutcome :=
  botoGo globalRepo put branch subpath files 0

/-- Declarative reading of "the pattern `pre` then `\d+` matches at the start
of `s`, greedily capturing `ds`". -/
def AnchoredMatch (pre s ds : List Char) : Prop :=
  ∃ rest, s = pre ++ (ds ++ rest) ∧ ds ≠ [] ∧ (∀ c ∈ ds, c.isDigit = true) ∧
    ∀ c, rest.head? = some c → c.isDigit = false

/-- Declarative reading of "`QIDQ\d+` matches at position `i` of `s` with
captured group `g`" (the group of `QID(Q\d+)` is `Q` plus the digits). -/
def QidMatchAt (s : List Char) (i : Nat) (g : List Char) : Prop :=
  ∃ ds, g = 'Q' :: ds ∧ AnchoredMatch (chars "QIDQ") (s.drop i) ds

/-! ### Helper lemmas -/

/-- A string that does not contain the pattern is left unchanged by
`pyReplaceFuel`, for any fuel. -/
theorem pyReplaceFuel_of_not_contains (pat repl : List Char) :
    ∀ (fuel : Nat) (s : List Char), containsSub pat s = false →
      pyReplaceFuel pat repl fuel s = s
  | 0, _, _ => rfl
  | _ + 1, [], _ => rfl
  | fuel + 1, c :: rest, h => by
    have h2 : pat.isPrefixOf (c :: rest) = false ∧ containsSub pat rest = false := by
      simpa [containsSub] using h
    simp [pyReplaceFuel, h2.1,
      pyReplaceFuel_of_not_contains pat repl fuel rest h2.2]

/-- A string that does not contain the pattern is left unchanged by
`pyReplace`. -/
theorem pyReplace_of_not_contains (s pat repl : List Char)
    (h : containsSub pat s = false) : pyReplace s pat repl = s :=
  pyReplaceFuel_of_not_contains pat repl s.length s h

/-- Unfolding of `pyReplaceFuel` on a cons cell with positive fuel. -/
theorem pyReplaceFuel_cons (pat repl : List Char) (fuel : Nat) (c : Char) (rest : List Char) :
    pyReplaceFuel pat repl (fuel + 1) (c :: rest) =
      if pat ≠ [] ∧ pat.isPrefixOf (c :: rest) then
        repl ++ pyReplaceFuel pat repl fuel ((c :: rest).drop pat.length)
      else c :: pyReplaceFuel pat repl fuel rest := rfl

/-- Unfolding of `pyReplace` on a cons cell. -/
theorem pyReplace_cons (pat repl : List Char) (c : Char) (rest : List Char) :
    pyReplace (c :: rest) pat repl =
      if pat ≠ [] ∧ pat.isPrefixOf (c :: rest) then
        repl ++ pyReplaceFuel pat repl rest.length ((c :: rest).drop pat.length)
      else c :: pyReplace rest pat repl := rfl

/-- Any fuel at least the length of the string computes `pyReplace`. -/
theorem pyReplaceFuel_canon (pat repl : List Char) :
    ∀ (fuel : Nat) (s : List Char), s.length ≤ fuel →
      pyReplaceFuel pat repl fuel s = pyReplace s pat repl := by
  intro fuel
  induction fuel using Nat.strong_induction_on with
  | _ fuel ih =>
    intro s hs
    cases s with
    | nil => cases fuel <;> rfl
    | cons c rest =>
      cases fuel with
      | zero => simp at hs
      | succ f =>
        have hsf : rest.length ≤ f := by simpa using hs
        rw [pyReplaceFuel_cons, pyReplace_cons]
        by_cases hg : pat ≠ [] ∧ pat.isPrefixOf (c :: rest)
        · rw [if_pos hg, if_pos hg]
          have hpl : 1 ≤ pat.length := by
            cases pat with
            | nil => exact absurd rfl hg.1
            | cons _ _ => simp
          have hbl : ((c :: rest).drop pat.length).length ≤ rest.length := by
            simp only [List.length_drop, List.length_cons]
            omega
          rw [ih f (by omega) _ (by omega),
            ih rest.length (by omega) _ (by omega)]
        · rw [if_neg hg, if_neg hg, ih f (by omega) rest (by omega)]

/-- A single-pass replace specification extends across a cons cell at which
the pattern does not match. -/
theorem replSpec_cons {pat repl : List Char} {c : Char} {rest t : List Char}
    (hp : pat.isPrefixOf (c :: rest) = false)
    (h : ReplSpec pat repl rest t) : ReplSpec pat repl (c :: rest) (c :: t) := by
  cases h with
  | no_occ _ hs => exact ReplSpec.no_occ (c :: rest) (by simp [containsSub, hp, hs])
  | occ a b t2 ha hb =>
    refine ReplSpec.occ (c :: a) b t2 ?_ hb
    intro i hi
    cases i with
    | zero => simpa using hp
    | succ j =>
      have hj : j < a.length := by simpa using hi
      simpa using ha j hj

/-- Correctness of the embedded Python replace against the declarative
specification: for a non-empty pattern, `pyReplace` replaces exactly the
leftmost non-overlapping occurrences of the pattern, left to right. -/
theorem pyReplace_spec (pat repl : List Char) (hpat : pat ≠ []) :
    ∀ (n : Nat) (s : List Char), s.length ≤ n →
      ReplSpec pat repl s (pyReplace s pat repl) := by
  intro n
  induction n using Nat.strong_induction_on with
  | _ n ih =>
    intro s hs
    cases s with
    | nil =>
      have hc : containsSub pat [] = false := by
        cases pat with
        | nil => exact absurd rfl hpat
        | cons p ps => rfl
      exact ReplSpec.no_occ [] hc
    | cons c rest =>
      cases n with
      | zero => simp at hs
      | succ n2 =>
        have hs2 : rest.length ≤ n2 := by simpa using hs
        by_cases hp : pat.isPrefixOf (c :: rest) = true
        · obtain ⟨b, hb⟩ := List.isPrefixOf_iff_prefix.1 hp
          have hpl : 1 ≤ pat.length := by
            cases pat with
            | nil => exact absurd rfl hpat
            | cons _ _ => simp
          have hlb : pat.length + b.length = rest.length + 1 := by
            have h2 := congrArg List.length hb
            simpa [List.length_append] using h2
          have hdrop : (c :: rest).drop pat.length = b := by
            rw [← hb]
            exact List.drop_left pat b
          have heq : pyReplace (c :: rest) pat repl = repl ++ pyReplace b pat repl := by
            rw [pyReplace_cons, if_pos ⟨hpat, hp⟩, hdrop,
              pyReplaceFuel_canon pat repl rest.length b (by omega)]
          rw [heq, ← hb]
          exact ReplSpec.occ [] b _ (fun i hi => absurd hi (Nat.not_lt_zero i))
            (ih n2 (by omega) b (by omega))
        · have hp2 : pat.isPrefixOf (c :: rest) = false := by
            cases hx : pat.isPrefixOf (c :: rest)
            · rfl
            · exact absurd hx hp
          have heq : pyReplace (c :: rest) pat repl = c :: pyReplace rest pat repl := by
            rw [pyReplace_cons, if_neg (by simp [hp2])]
          rw [heq]
          exact replSpec_cons hp2 (ih n2 (by omega) rest hs2)

/-- Decomposition of a string into its maximal leading digit run and a rest
that does not start with a digit. -/
theorem leadingDigits_spec (t : List Char) : ∃ r : List Char,
    t = leadingDigits t ++ r ∧ (∀ c ∈ leadingDigits t, c.isDigit = true) ∧
      ∀ c, r.head? = some c → c.isDigit = false := by
  induction t with
  | nil => exact ⟨[], rfl, by simp [leadingDigits], by simp⟩
  | cons c rest ih =>
    by_cases hd : c.isDigit = true
    · obtain ⟨r, h1, h2, h3⟩ := ih
      refine ⟨r, ?_, ?_, h3⟩
      · simpa [leadingDigits, hd] using congrArg (c :: ·) h1
      · intro x hx
        simp only [leadingDigits, hd, if_true, List.mem_cons] at hx
        rcases hx with hx | hx
        · subst hx; exact hd
        · exact h2 x hx
    · refine ⟨c :: rest, ?_, ?_, ?_⟩
      · simp [leadingDigits, hd]
      · simp [leadingDigits, hd]
      · intro x hx
        simp only [List.head?_cons, Option.some.injEq] at hx
        subst hx
        simpa using hd

/-- `leadingDigits` recovers exactly the digit block of a
digits-then-non-digit concatenation. -/
theorem leadingDigits_digits_append (ds rest : List Char)
    (hds : ∀ c ∈ ds, c.isDigit = true)
    (hrest : ∀ c, rest.head? = some c → c.isDigit = false) :
    leadingDigits (ds ++ rest) = ds := by
  induction ds with
  | nil =>
    simp only [List.nil_append]
    cases rest with
    | nil => rfl
    | cons c t =>
      have hc : c.isDigit = false := hrest c rfl
      simp [leadingDigits, hc]
  | cons d ds ih =>
    have hd : d.isDigit = true := hds d (by simp)
    simp [leadingDigits, hd, ih fun c hc => hds c (by simp [hc])]

/-- `anchorDigits` returns `some ds` exactly on the declarative anchored
match. -/
theorem anchorDigits_eq_some_iff (pre s ds : List Char) :
    anchorDigits pre s = some ds ↔ AnchoredMatch pre s ds := by
  constructor
  · intro h
    by_cases hp : pre.isPrefixOf s = true
    · rw [anchorDigits, if_pos hp] at h
      by_cases he : leadingDigits (s.drop pre.length) = []
      · rw [if_pos he] at h; cases h
      · rw [if_neg he] at h
        injection h with h
        subst h
        have hpre : pre <+: s := List.isPrefixOf_iff_prefix.1 hp
        obtain ⟨t, ht⟩ := hpre
        have hdrop : s.drop pre.length = t := by
          rw [← ht]; exact List.drop_left pre t
        rw [hdrop] at he ⊢
        obtain ⟨r, h1, h2, h3⟩ := leadingDigits_spec t
        exact ⟨r, by rw [← ht, ← h1], he, h2, h3⟩
    · rw [anchorDigits, if_neg hp] at h; cases h
  · rintro ⟨rest, rfl, hne, hds, hrest⟩
    have hp : pre.isPrefixOf (pre ++ (ds ++ rest)) = true :=
      List.isPrefixOf_iff_prefix.2 ⟨ds ++ rest, rfl⟩
    rw [anchorDigits, if_pos hp, List.drop_left,
      leadingDigits_digits_append ds rest hds hrest, if_neg hne]

/-- `anchorDigits` returns `none` exactly when no anchored match exists. -/
theorem anchorDigits_eq_none_iff (pre s : List Char) :
    anchorDigits pre s = none ↔ ∀ ds, ¬ AnchoredMatch pre s ds := by
  constructor
  · intro h ds hm
    rw [← anchorDigits_eq_some_iff] at hm
    rw [h] at hm
    cases hm
  · intro h
    cases hv : anchorDigits pre s with
    | none => rfl
    | some ds => exact absurd ((anchorDigits_eq_some_iff pre s ds).1 hv) (h ds)

/-- Unfolding of `searchQID` on a cons cell. -/
theorem searchQID_cons (c : Char) (rest : List Char) :
    searchQID (c :: rest) =
      match anchorDigits (chars "QIDQ") (c :: rest) with
      | some ds => some ('Q' :: ds)
      | none => searchQID rest := rfl

/-- Shifting a match position across a cons cell. -/
theorem qidMatchAt_succ_cons (c : Char) (rest : List Char) (i : Nat) (g : List Char) :
    QidMatchAt (c :: rest) (i + 1) g ↔ QidMatchAt rest i g := by
  simp [QidMatchAt]

/-- When `searchQID` produces a group, it is the group of a match, and no
match starts at any earlier position (leftmost-match semantics of
`re.search`). -/
theorem searchQID_some (s : List Char) :
    ∀ g, searchQID s = some g →
      ∃ i, QidMatchAt s i g ∧ ∀ j g2, j < i → ¬ QidMatchAt s j g2 := by
  induction s with
  | nil => intro g h; cases h
  | cons c rest ih =>
    intro g h
    cases hv : anchorDigits (chars "QIDQ") (c :: rest) with
    | some ds =>
      rw [searchQID_cons] at h
      rw [hv] at h
      injection h with h
      refine ⟨0, ⟨ds, h.symm, ?_⟩, fun j g2 hj => absurd hj (Nat.not_lt_zero j)⟩
      simpa using (anchorDigits_eq_some_iff _ _ _).1 hv
    | none =>
      rw [searchQID_cons] at h
      rw [hv] at h
      obtain ⟨i, hm, hmin⟩ := ih g h
      refine ⟨i + 1, (qidMatchAt_succ_cons c rest i g).2 hm, ?_⟩
      intro j g2 hj
      cases j with
      | zero =>
        rintro ⟨ds, hg, ham⟩
        exact (anchorDigits_eq_none_iff _ _).1 hv ds (by simpa using ham)
      | succ j2 =>
        rw [qidMatchAt_succ_cons]
        exact hmin j2 g2 (by omega)

/-- `searchQID` produces nothing exactly when no position of the string
matches `QIDQ\d+`. -/
theorem searchQID_none_iff (s : List Char) :
    searchQID s = none ↔ ∀ i g, ¬ QidMatchAt s i g := by
  induction s with
  | nil =>
    simp only [searchQID, true_iff]
    rintro i g ⟨ds, hg, rest, heq, hne, hds, hrest⟩
    rw [List.drop_nil] at heq
    have : chars "QIDQ" = [] := (List.append_eq_nil.1 heq.symm).1
    cases this
  | cons c rest ih =>
    cases hv : anchorDigits (chars "QIDQ") (c :: rest) with
    | some ds =>
      constructor
      · intro h
        rw [searchQID_cons] at h
        rw [hv] at h
        cases h
      · intro h
        refine absurd ((anchorDigits_eq_some_iff _ _ _).1 hv) fun ham => ?_
        exact h 0 ('Q' :: ds) ⟨ds, rfl, by simpa using ham⟩
    | none =>
      rw [searchQID_cons]
      rw [hv]
      rw [ih]
      constructor
      · intro h i g
        cases i with
        | zero =>
          rintro ⟨ds, hg, ham⟩
          exact (anchorDigits_eq_none_iff _ _).1 hv ds (by simpa using ham)
        | succ j =>
          rw [qidMatchAt_succ_cons]
          exact h j g
      · intro h j g
        have h2 := h (j + 1) g
        rwa [qidMatchAt_succ_cons] at h2

/-- When every attempt fails, `k ≥ 1` loop iterations starting at attempt
number `a` make exactly `k` POST attempts, sleep `k - 1` times, end in the
exhaustion branch, and raise the exception of the last attempt, `post (a + k - 1)`. -/
theorem queryGo_all_fail {E P : Type} (post : Nat → Except E P)
    (hfail : ∀ n, ∃ e, post n = Except.error e) :
    ∀ (k a : Nat) (lastExc : Option E), 1 ≤ k →
      ∃ e, post (a + k - 1) = Except.error e ∧
        queryGo post a k lastExc =
          { result := Except.error (some e), attempts := k,
            sleeps := k - 1, exhausted := true } := by
  intro k
  induction k with
  | zero => intro a lastExc h; omega
  | succ k2 ih =>
    intro a lastExc _
    obtain ⟨e, he⟩ := hfail a
    cases Nat.eq_zero_or_pos k2 with
    | inl hz =>
      subst hz
      refine ⟨e, by simpa using he, ?_⟩
      simp [queryGo, he]
    | inr hpos =>
      obtain ⟨e2, he2, hrec⟩ := ih (a + 1) (some e) hpos
      refine ⟨e2, by convert he2 using 2; omega, ?_⟩
      have hne : ¬ k2 = 0 := by omega
      simp only [queryGo, he, hrec, RunOutcome.mk.injEq, hne, if_false, true_and, and_true]
      omega

/-- Unfolding of one loop iteration of `queryGo`. -/
theorem queryGo_succ {E P : Type} (post : Nat → Except E P) (a r : Nat) (le : Option E) :
    queryGo post a (r + 1) le =
      match post a with
      | Except.ok d =>
        { result := Except.ok d, attempts := 1, sleeps := 0, exhausted := false }
      | Except.error e =>
        let rest := queryGo post (a + 1) r (some e)
        { result := rest.result, attempts := rest.attempts + 1,
          sleeps := rest.sleeps + (if r = 0 then 0 else 1),
          exhausted := rest.exhausted } := rfl

/-- With the module-level `repo` binding present and every file readable, no
exception escapes the boto upload loop: its inner `try` converts `put_object`
exceptions to `-1` and the loop runs to completion. -/
theorem botoGo_readable_raised_none (r : List Char) (put : Nat → Except Unit Int)
    (branch subpath : List Char) :
    ∀ (files : List BotoFile) (k : Nat), (∀ f ∈ files, f.readable = true) →
      (botoGo (some r) put branch subpath files k).raised = none := by
  intro files
  induction files with
  | nil => intro k _; rfl
  | cons f rest ih =>
    intro k h
    have hf : f.readable = true := h f (by simp)
    have hr : ∀ g ∈ rest, g.readable = true := fun g hg => h g (by simp [hg])
    cases hput : put k with
    | ok code => simp [botoGo, hf, hput, ih (k + 1) hr]
    | error e => simp [botoGo, hf, hput, ih (k + 1) hr]

/-! ### Claim theorems -/

/-- C1: for every query string, when every attempted HTTP POST raises a
transport error, `query_mardi_kg` with `max_retries = 2` makes exactly 2
attempts, prints the curl reproduction command built from the parameter dict
(whose parameters contain the search string under `srsearch`), never returns
normally, and re-raises the final transport error to the caller. -/
theorem c1_retry_exhaustion {E P : Type} (post : Nat → Except E P)
    (q ns url : List Char) (hfail : ∀ n, ∃ e, post n = Except.error e) :
    (query_mardi_kg post q ns url 2).1.attempts = 2 ∧
    (∀ d : P, (query_mardi_kg post q ns url 2).1.result ≠ Except.ok d) ∧
    (query_mardi_kg post q ns url 2).2 =
      some (generate_curl_command url (mkParams q ns)) ∧
    (chars "srsearch", q) ∈ mkParams q ns ∧
    ∃ elast, post 2 = Except.error elast ∧
      (query_mardi_kg post q ns url 2).1.result = Except.error (some elast) := by
  obtain ⟨e, he, hrun⟩ := queryGo_all_fail post hfail 2 1 none (by omega)
  have he2 : post 2 = Except.error e := he
  refine ⟨?_, ?_, ?_, ?_, e, he2, ?_⟩ <;> simp [query_mardi_kg, hrun, mkParams]

/-- Witness for C1: a concrete always-failing transport with `E = P = Nat`. -/
theorem c1_retry_exhaustion_witness :
    (query_mardi_kg (fun n => (Except.error n : Except Nat Nat))
        (chars "final-query") (chars "4206")
        (chars "https://portal.mardi4nfdi.de/w/api.php") 2).1.attempts = 2 ∧
    (query_mardi_kg (fun n => (Except.error n : Except Nat Nat))
        (chars "final-query") (chars "4206")
        (chars "https://portal.mardi4nfdi.de/w/api.php") 2).2 =
      some (generate_curl_command (chars "https://portal.mardi4nfdi.de/w/api.php")
        (mkParams (chars "final-query") (chars "4206"))) :=
  ⟨(c1_retry_exhaustion _ _ _ _ fun n => ⟨n, rfl⟩).1,
   (c1_retry_exhaustion _ _ _ _ fun n => ⟨n, rfl⟩).2.2.1⟩

/-- C2: for every query string, when the POST fails on the first attempt and
succeeds on the second, `query_mardi_kg` with `max_retries = 3` makes exactly
2 attempts, returns the parsed JSON body of the successful response
unchanged, sleeps once (each sleep passes the constant `retry_delay`), and
prints no exhaustion diagnostics. -/
theorem c2_retry_then_success {E P : Type} (post : Nat → Except E P)
    (q ns url : List Char) (e : E) (d : P)
    (h1 : post 1 = Except.error e) (h2 : post 2 = Except.ok d) :
    (query_mardi_kg post q ns url 3).1.attempts = 2 ∧
    (query_mardi_kg post q ns url 3).1.result = Except.ok d ∧
    (query_mardi_kg post q ns url 3).1.sleeps = 1 ∧
    (query_mardi_kg post q ns url 3).2 = none := by
  have u1 := queryGo_succ post 1 2 (none : Option E)
  rw [h1] at u1
  simp only [] at u1
  have u2 := queryGo_succ post 2 1 (some e)
  rw [h2] at u2
  simp at u1 u2
  rw [u2] at u1
  simp at u1
  refine ⟨?_, ?_, ?_, ?_⟩ <;> simp [query_mardi_kg, u1]

/-- Witness for C2: a concrete fail-once-then-succeed transport. -/
theorem c2_retry_then_success_witness :
    (query_mardi_kg (fun n => if n = 1 then Except.error 0 else Except.ok 7)
        (chars "q") (chars "4206") (chars "u") 3).1.attempts = 2 ∧
    (query_mardi_kg (fun n => if n = 1 then Except.error 0 else Except.ok 7)
        (chars "q") (chars "4206") (chars "u") 3).1.result = Except.ok 7 :=
  ⟨(c2_retry_then_success _ _ _ _ 0 7 rfl rfl).1,
   (c2_retry_then_success _ _ _ _ 0 7 rfl rfl).2.1⟩

/-- C3 counterexample: `re.match(r"Publication:(\d+)", title)` anchors at the
start only, so the title `Publication:123abc` — which is *not* of the shape
`Publication:<digits>` — still yields the identifier `Q123`, while the claim
predicts an absent identifier for every title not of that shape. -/
theorem c3_counterexample :
    doiQid (chars "Publication:123abc") = some (chars "Q123") ∧
    ¬ ∃ ds : List Char, ds ≠ [] ∧ (∀ c ∈ ds, c.isDigit = true) ∧
        chars "Publication:123abc" = chars "Publication:" ++ ds := by
  refine ⟨by decide, ?_⟩
  rintro ⟨ds, hne, hds, heq⟩
  have h2 : chars "Publication:" ++ chars "123abc" = chars "Publication:" ++ ds := by
    rw [← heq]; decide
  have h3 : ds = chars "123abc" := (List.append_cancel_left h2).symm
  subst h3
  exact absurd (hds 'a' (by decide)) (by decide)

/-- C3 amended: the identifier is `Q` followed by the maximal leading digit
run exactly when the title *begins with* `Publication:` followed by at least
one digit (the match need not span the whole title); it is absent exactly
when no such anchored match exists.  In particular title
`Publication:2176828` yields `Q2176828`. -/
theorem c3_doi_qid_amended (title : List Char) :
    (∀ g, doiQid title = some g ↔
      ∃ ds, g = 'Q' :: ds ∧ AnchoredMatch (chars "Publication:") title ds) ∧
    (doiQid title = none ↔ ∀ ds, ¬ AnchoredMatch (chars "Publication:") title ds) ∧
    doiQid (chars "Publication:2176828") = some (chars "Q2176828") := by
  refine ⟨?_, ?_, by decide⟩
  · intro g
    constructor
    · intro h
      cases hv : anchorDigits (chars "Publication:") title with
      | none => rw [doiQid, hv] at h; cases h
      | some ds =>
        rw [doiQid, hv] at h
        injection h with h
        exact ⟨ds, h.symm, (anchorDigits_eq_some_iff _ _ _).1 hv⟩
    · rintro ⟨ds, rfl, ham⟩
      rw [doiQid, (anchorDigits_eq_some_iff _ _ _).2 ham]
      rfl
  · constructor
    · intro h ds ham
      rw [doiQid, (anchorDigits_eq_some_iff _ _ _).2 ham] at h
      cases h
    · intro h
      rw [doiQid, (anchorDigits_eq_none_iff _ _).2 h]
      rfl

/-- Witness for C3's amended theorem: the spec's own DOI-mode example. -/
theorem c3_doi_qid_amended_witness :
    doiQid (chars "Publication:2176828") = some (chars "Q2176828") :=
  (c3_doi_qid_amended (chars "Publication:2176828")).2.2

/-- C5 counterexample: the cleaning step does not, in general, remove exactly
the original marker occurrences and change nothing else.  The snippet
`</spa<span class="searchmatch">n>X` decomposes as `</spa` ++ marker1 ++
`n>X`; it contains one occurrence of the opening marker and none of
`</span>`, so removing every marker occurrence and nothing else would give
`</spa` ++ `n>X` = `</span>X`.  The code instead cleans it to `X`: removing
the opening marker creates a `</span>` that the second pass also deletes. -/
theorem c5_counterexample :
    cleanSnippet (chars "</spa<span class=\"searchmatch\">n>X") = chars "X" ∧
    chars "</spa<span class=\"searchmatch\">n>X" =
      chars "</spa" ++ chars "<span class=\"searchmatch\">" ++ chars "n>X" ∧
    containsSub (chars "<span class=\"searchmatch\">")
      (chars "</spa" ++ chars "n>X") = false ∧
    containsSub (chars "</span>") (chars "</spa<span class=\"searchmatch\">n>X") = false ∧
    chars "X" ≠ chars "</spa" ++ chars "n>X" := by
  refine ⟨by decide, by decide, by decide, by decide, by decide⟩

/-- C5 amended: the cleaning step is two sequential single-pass replaces,
each removing exactly the leftmost non-overlapping occurrences of its marker
*from its own input* — first every `<span class="searchmatch">` occurrence of
the snippet, then every `</span>` occurrence of the intermediate result, so
the second pass may also delete `</span>` occurrences created by the first
(e.g. `</spa<span class="searchmatch">n>X` cleans to `X`).  A snippet
containing neither marker is returned unchanged, and the spec's example
cleans to `Intro QIDQ123 details`. -/
theorem c5_snippet_cleaning_amended :
    (∀ s : List Char,
      ReplSpec (chars "<span class=\"searchmatch\">") [] s
        (pyReplace s (chars "<span class=\"searchmatch\">") []) ∧
      ReplSpec (chars "</span>") []
        (pyReplace s (chars "<span class=\"searchmatch\">") []) (cleanSnippet s)) ∧
    (∀ s : List Char,
      containsSub (chars "<span class=\"searchmatch\">") s = false →
      containsSub (chars "</span>") s = false →
      cleanSnippet s = s) ∧
    cleanSnippet (chars "Intro <span class=\"searchmatch\">QIDQ123</span> details") =
      chars "Intro QIDQ123 details" ∧
    cleanSnippet (chars "</spa<span class=\"searchmatch\">n>X") = chars "X" := by
  refine ⟨fun s => ⟨?_, ?_⟩, ?_, by decide, by decide⟩
  · exact pyReplace_spec _ [] (by decide) s.length s (Nat.le_refl _)
  · exact pyReplace_spec _ [] (by decide)
      (pyReplace s (chars "<span class=\"searchmatch\">") []).length
      (pyReplace s (chars "<span class=\"searchmatch\">") []) (Nat.le_refl _)
  · intro s h1 h2
    rw [cleanSnippet, pyReplace_of_not_contains s _ _ h1, pyReplace_of_not_contains s _ _ h2]

/-- Witness for C5's amended theorem: a marker-free snippet is unchanged. -/
theorem c5_snippet_cleaning_amended_witness :
    cleanSnippet (chars "plain text, no markers") = chars "plain text, no markers" :=
  c5_snippet_cleaning_amended.2.1 (chars "plain text, no markers") (by decide) (by decide)

/-- C6: the qid field of every arXiv-mode record is `searchQID` of the
cleaned snippet; `searchQID` returns the captured group `Q<digits>` of the
*leftmost* `QIDQ\d+` match with greedy digits, is `none` exactly when no
position of the cleaned snippet matches, and on the spec's example snippet it
yields `Q123`. -/
theorem c6_arxiv_qid (s : List Char) :
    (∀ g, searchQID s = some g →
      ∃ i, QidMatchAt s i g ∧ ∀ j g2, j < i → ¬ QidMatchAt s j g2) ∧
    (searchQID s = none ↔ ∀ i g, ¬ QidMatchAt s i g) ∧
    (∀ r : SearchEntry, (processEntryArxiv r).qid =
      searchQID (cleanSnippet (r.snippet.getD []))) ∧
    searchQID (cleanSnippet
        (chars "Intro <span class=\"searchmatch\">QIDQ123</span> details")) =
      some (chars "Q123") :=
  ⟨searchQID_some s, searchQID_none_iff s, fun _ => rfl, by decide⟩

/-- Witness for C6: a concrete snippet with a `QIDQ123` occurrence. -/
theorem c6_arxiv_qid_witness :
    ∃ i, QidMatchAt (chars "see QIDQ123 here") i (chars "Q123") ∧
      ∀ j g2, j < i → ¬ QidMatchAt (chars "see QIDQ123 here") j g2 :=
  (c6_arxiv_qid (chars "see QIDQ123 here")).1 (chars "Q123") (by decide)

/-- C10: each normalizer emits exactly one record per entry of
`payload["query"]["search"]`, in order (each record is a `SearchResult`,
which has exactly the fields `qid`, `title`, `snippet`); a payload missing
the `query` key or the `search` key yields `[]` from both normalizers. -/
theorem c10_normalizer_shape :
    (∀ p : RawPayload,
      (query_mardi_kg_for_arxivid_results p).length = (getSearchList p).length ∧
      (query_mardi_kg_for_doi_results p).length = (getSearchList p).length ∧
      (∀ i : Nat, (query_mardi_kg_for_arxivid_results p)[i]? =
        ((getSearchList p)[i]?).map processEntryArxiv) ∧
      (∀ i : Nat, (query_mardi_kg_for_doi_results p)[i]? =
        ((getSearchList p)[i]?).map processEntryDoi)) ∧
    query_mardi_kg_for_arxivid_results { query := none } = [] ∧
    query_mardi_kg_for_doi_results { query := none } = [] ∧
    query_mardi_kg_for_arxivid_results { query := some { search := none } } = [] ∧
    query_mardi_kg_for_doi_results { query := some { search := none } } = [] := by
  refine ⟨fun p => ⟨?_, ?_, ?_, ?_⟩, rfl, rfl, rfl, rfl⟩ <;>
    simp [query_mardi_kg_for_arxivid_results, query_mardi_kg_for_doi_results]

/-- C4 counterexample: two storage-wrapper operations re-raise.  A generic
exception from the remote call of `LakeClient.commit_to_lakefs` or of
`LakeClient.sync_repo_to_local` escapes the method uncaught, contradicting
the claim that only the query executor re-raises. -/
theorem c4_counterexample :
    commit_to_lakefs (Except.error PyExc.otherExc) =
        MethodOutcome.uncaught PyExc.otherExc ∧
    sync_repo_to_local (Except.error PyExc.otherExc) =
        MethodOutcome.uncaught PyExc.otherExc :=
  ⟨rfl, rfl⟩

/-- C4 amended: every storage-wrapper operation *except*
`LakeClient.commit_to_lakefs`, `LakeClient.sync_repo_to_local`,
`IPFSClient.remove_mfs_path` and `LakeClient.upload_to_lakefs_boto` converts
any exception from its remote call into a boolean/`None` sentinel plus a
logged message and never re-raises; `commit_to_lakefs` converts only the
benign 400 `"commit: no changes"` `ApiException` (to `None`) and re-raises
everything else after logging; `sync_repo_to_local` logs and re-raises every
exception; `remove_mfs_path` catches only `requests.HTTPError` (mapping it to
a boolean) and lets any other exception propagate; `upload_to_lakefs_boto`
converts `put_object` exceptions to `-1` inside its inner `try` (with the
`repo` binding present and readable files nothing escapes it), but the
`NameError` from its free variable `repo` and the `OSError` from `open()`
occur outside any `try` and escape uncaught.  So the query executor is not
the only operation that re-raises. -/
theorem c4_wrapper_errors_amended :
    (∀ status body,
      ¬ (status = 400 ∧ containsSub (chars "commit: no changes") body = true) →
      commit_to_lakefs (Except.error (PyExc.apiExc status body)) =
        MethodOutcome.uncaught (PyExc.apiExc status body)) ∧
    (∀ body, containsSub (chars "commit: no changes") body = true →
      commit_to_lakefs (Except.error (PyExc.apiExc 400 body)) = MethodOutcome.ret none) ∧
    (commit_to_lakefs (Except.error PyExc.otherExc) =
      MethodOutcome.uncaught PyExc.otherExc) ∧
    (∀ status text, commit_to_lakefs (Except.error (PyExc.httpError status text)) =
      MethodOutcome.uncaught (PyExc.httpError status text)) ∧
    (∀ id, commit_to_lakefs (Except.ok id) = MethodOutcome.ret (some id)) ∧
    (∀ e, sync_repo_to_local (Except.error e) = MethodOutcome.uncaught e) ∧
    (remove_mfs_path (Except.error PyExc.otherExc) =
      MethodOutcome.uncaught PyExc.otherExc) ∧
    (∀ status body, remove_mfs_path (Except.error (PyExc.apiExc status body)) =
      MethodOutcome.uncaught (PyExc.apiExc status body)) ∧
    (∀ status text,
      remove_mfs_path (Except.error (PyExc.httpError status text)) = MethodOutcome.ret true ∨
      remove_mfs_path (Except.error (PyExc.httpError status text)) = MethodOutcome.ret false) ∧
    (∀ call, raisesNothing (health_check call)) ∧
    (∀ call, raisesNothing (file_exists call)) ∧
    (∀ call, raisesNothing (load_file call)) ∧
    (∀ (A : Type) (call : Except PyExc A), raisesNothing (list_objects call)) ∧
    (∀ calls, raisesNothing (upload_to_lakefs calls)) ∧
    (∀ call, raisesNothing (add_file call)) ∧
    (∀ call, raisesNothing (download_file call)) ∧
    (∀ call, raisesNothing (pin call)) ∧
    (∀ call, raisesNothing (unpin call)) ∧
    (∀ call, raisesNothing (run_gc call)) ∧
    (∀ (A : Type) (call : Except PyExc A), raisesNothing (list_pins call)) ∧
    (∀ (A : Type) (call : Except PyExc A), raisesNothing (list_local_refs call)) ∧
    (∀ call, raisesNothing (mkdir_mfs call)) ∧
    (∀ call, raisesNothing (tag_file call)) ∧
    (∀ call, raisesNothing (download_by_tag call)) ∧
    (∀ (A : Type) (call : Except PyExc A), raisesNothing (list_tags call)) ∧
    (∀ (r : List Char) (put : Nat → Except Unit Int) (branch subpath : List Char)
        (files : List BotoFile), (∀ f ∈ files, f.readable = true) →
      (upload_to_lakefs_boto (some r) put branch subpath files).raised = none) ∧
    (∀ (put : Nat → Except Unit Int) (branch subpath : List Char)
        (f : BotoFile) (rest : List BotoFile), f.readable = true →
      (upload_to_lakefs_boto none put branch subpath (f :: rest)).raised =
        some BotoExc.nameError) ∧
    (∀ (g : Option (List Char)) (put : Nat → Except Unit Int) (branch subpath : List Char)
        (f : BotoFile) (rest : List BotoFile), f.readable = false →
      (upload_to_lakefs_boto g put branch subpath (f :: rest)).raised =
        some BotoExc.ioError) := by
  refine ⟨?_, ?_, rfl, fun status text => rfl, fun id => rfl, fun e => rfl, rfl,
    fun status body => rfl, ?_, ?_, ?_, ?_, ?_, ?_, ?_, ?_, ?_, ?_, ?_, ?_, ?_, ?_, ?_, ?_, ?_,
    ?_, ?_, ?_⟩
  · intro status body h
    simp [commit_to_lakefs, h]
  · intro body h
    simp [commit_to_lakefs, h]
  · intro status text
    rw [remove_mfs_path]
    split
    · exact Or.inl rfl
    · exact Or.inr rfl
  · intro call; cases call <;> simp [raisesNothing, health_check]
  · intro call; cases call <;> simp [raisesNothing, file_exists]
  · intro call; cases call <;> simp [raisesNothing, load_file]
  · intro A call; cases call <;> simp [raisesNothing, list_objects]
  · intro calls; simp [raisesNothing, upload_to_lakefs]
  · intro call; cases call <;> simp [raisesNothing, add_file]
  · intro call; cases call <;> simp [raisesNothing, download_file]
  · intro call; cases call <;> simp [raisesNothing, pin]
  · intro call; cases call <;> simp [raisesNothing, unpin]
  · intro call; cases call <;> simp [raisesNothing, run_gc]
  · intro A call; cases call <;> simp [raisesNothing, list_pins]
  · intro A call; cases call <;> simp [raisesNothing, list_local_refs]
  · intro call; cases call <;> simp [raisesNothing, mkdir_mfs]
  · intro call
    cases call with
    | ok _ => simp [raisesNothing, tag_file]
    | error e =>
      cases e <;> simp [raisesNothing, tag_file]
  · intro call; cases call <;> simp [raisesNothing, download_by_tag]
  · intro A call; cases call <;> simp [raisesNothing, list_tags]
  · intro r put branch subpath files hread
    exact botoGo_readable_raised_none r put branch subpath files 0 hread
  · intro put branch subpath f rest hread
    simp [upload_to_lakefs_boto, botoGo, hread]
  · intro g put branch subpath f rest hread
    simp [upload_to_lakefs_boto, botoGo, hread]

/-- Witness for C4's amended theorem: a 500 `ApiException` escapes
`commit_to_lakefs` uncaught. -/
theorem c4_wrapper_errors_amended_witness :
    commit_to_lakefs (Except.error (PyExc.apiExc 500 [])) =
      MethodOutcome.uncaught (PyExc.apiExc 500 []) :=
  c4_wrapper_errors_amended.1 500 [] (by decide)

/-- C7: `read_credentials` returns either a record with both `user` and
`password` or `None`: the Prefect branch returns a full record when taken;
on the file branch, both keys present yields the record built from their
values, and a missing `<name>-user` or `<name>-password` key (in particular,
exactly one of them present) yields `None` with the missing-key warning
logged — never an exception (the embedding is a total function). -/
theorem c7_read_credentials (onlyLocal : Bool) (prefectResult : Option Creds)
    (name : List Char) (lines : List (List Char))
    (fileLines : Option (List (List Char))) :
    (∀ c, prefectResult = some c →
      read_credentials false prefectResult name fileLines = (some c, CredLog.noLog)) ∧
    ((if onlyLocal then none else prefectResult) = none →
      (∀ u p,
        dictLookup (parseSecretLines lines) (name ++ chars "-user") = some u →
        dictLookup (parseSecretLines lines) (name ++ chars "-password") = some p →
        read_credentials onlyLocal prefectResult name (some lines) =
          (some { user := u, password := p }, CredLog.noLog)) ∧
      ((dictLookup (parseSecretLines lines) (name ++ chars "-user") = none ∨
        dictLookup (parseSecretLines lines) (name ++ chars "-password") = none) →
        read_credentials onlyLocal prefectResult name (some lines) =
          (none, CredLog.missingKeys))) := by
  refine ⟨?_, fun hp => ⟨?_, ?_⟩⟩
  · rintro c rfl
    rfl
  · intro u p hu hpw
    simp [read_credentials, hp, hu, hpw]
  · intro hmiss
    rcases hmiss with hm | hm <;> simp [read_credentials, hp, hm]

/-- Witness for C7: a secrets file holding only the user key yields `None`
plus the missing-key warning. -/
theorem c7_read_credentials_witness :
    read_credentials true none (chars "lakefs") (some [chars "lakefs-user=alice"]) =
      (none, CredLog.missingKeys) :=
  ((c7_read_credentials true none (chars "lakefs") [chars "lakefs-user=alice"] none).2
    rfl).2 (Or.inr (by decide))

/-- C8: `upload_to_lakefs_boto` references the free name `repo` (the method's
parameter is `_repo`); when no module-level binding of `repo` exists, any
call with a non-empty file list whose first file is readable raises
`NameError` before performing any upload; with such a binding present the
upload proceeds. -/
theorem c8_boto_free_variable (put : Nat → Except Unit Int) (branch subpath : List Char)
    (f : BotoFile) (rest : List BotoFile) (hread : f.readable = true) :
    (upload_to_lakefs_boto none put branch subpath (f :: rest) =
      { results := [], raised := some BotoExc.nameError, putCalls := 0 }) ∧
    (∀ repoName code, put 0 = Except.ok code →
      upload_to_lakefs_boto (some repoName) put branch subpath [f] =
        { results := [code], raised := none, putCalls := 1 }) := by
  constructor
  · simp [upload_to_lakefs_boto, botoGo, hread]
  · intro repoName code hput
    simp [upload_to_lakefs_boto, botoGo, hread, hput]

/-- Witness for C8: one readable file, no module-level `repo` binding. -/
theorem c8_boto_free_variable_witness :
    upload_to_lakefs_boto none (fun _ => Except.ok 200) (chars "main") (chars "")
        [{ path := chars "/tmp/data.db", readable := true }] =
      { results := [], raised := some BotoExc.nameError, putCalls := 0 } :=
  (c8_boto_free_variable (fun _ => Except.ok 200) (chars "main") (chars "")
    { path := chars "/tmp/data.db", readable := true } [] rfl).1

/-- C9: whenever `max_retries ≥ 1` and all attempts fail, the value re-raised
on the exhaustion path is the transport error of the last attempt (attempt
number `max_retries`), never the initial `None`; for `max_retries ≤ 0` the
loop body never runs, no POST attempt is made, and the exhaustion branch
raises the initial `None` itself (`Except.error none`, Python's
`raise None`, a `TypeError` rather than a transport error). -/
theorem c9_raise_semantics {E P : Type} (post : Nat → Except E P)
    (q ns url : List Char) (m : Int) :
    (1 ≤ m → (∀ n, ∃ e, post n = Except.error e) →
      ∃ elast, post m.toNat = Except.error elast ∧
        (query_mardi_kg post q ns url m).1.result = Except.error (some elast) ∧
        (query_mardi_kg post q ns url m).1.attempts = m.toNat) ∧
    (m ≤ 0 →
      (query_mardi_kg post q ns url m).1.attempts = 0 ∧
      (query_mardi_kg post q ns url m).1.result = Except.error (none : Option E)) := by
  constructor
  · intro hm hfail
    have hk : 1 ≤ m.toNat := by omega
    obtain ⟨e, he, hrun⟩ := queryGo_all_fail post hfail m.toNat 1 none hk
    have he2 : post m.toNat = Except.error e := by
      have harith : 1 + m.toNat - 1 = m.toNat := by omega
      rwa [harith] at he
    exact ⟨e, he2, by simp [query_mardi_kg, hrun], by simp [query_mardi_kg, hrun]⟩
  · intro hm
    have h0 : m.toNat = 0 := by omega
    constructor <;> simp [query_mardi_kg, h0, queryGo]

/-- Witness for C9: an always-failing transport at `max_retries = 2` raises
the error of attempt 2, and at `max_retries = -1` makes no attempt and raises
the `None` sentinel. -/
theorem c9_raise_semantics_witness :
    (∃ elast, (fun n => (Except.error n : Except Nat Nat)) (Int.toNat 2) =
        Except.error elast ∧
      (query_mardi_kg (fun n => (Except.error n : Except Nat Nat))
          (chars "q") (chars "4206") (chars "u") 2).1.result =
        Except.error (some elast) ∧
      (query_mardi_kg (fun n => (Except.error n : Except Nat Nat))
          (chars "q") (chars "4206") (chars "u") 2).1.attempts = Int.toNat 2) ∧
    (query_mardi_kg (fun n => (Except.error n : Except Nat Nat))
        (chars "q") (chars "4206") (chars "u") (-1)).1.attempts = 0 :=
  ⟨(c9_raise_semantics _ _ _ _ 2).1 (by norm_num) (fun n => ⟨n, rfl⟩),
   ((c9_raise_semantics (fun n => (Except.error n : Except Nat Nat))
      (chars "q") (chars "4206") (chars "u") (-1)).2 (by norm_num)).1⟩
